import Mathlib

/-!
# Verification of the micv resilience core (retry executor, circuit breaker, orchestrator)

Shallow embedding of the relevant Go functions of the micv repository:

* `WithRetry` (retry executor with exponential backoff, context-cancellable waits),
* `CircuitBreaker.Call` / `onFailure` / `onSuccess` (three-state circuit breaker),
* `ApplicationService.SubmitApplication` (the orchestrator: validation, breaker-wrapped
  token fetch, retry-wrapped submission),
* the HTTP helpers `validateSecretResponse`, `parseSecretResponse`,
  `getAuthTokenWithClient`, `submitApplicationWithClient`, `processApplicationResponse`,
* the payload validator `validateApplicationDataFunctional` with its rules
  `RequiredField`, `EmailFormat`, `MinLength`.

Modelling conventions:
* `time.Duration` values (delays) are modelled as exact rationals `ℚ` in nanoseconds;
  Go's float64 delay arithmetic `time.Duration(float64(delay) * multiplier)` is
  abstracted to exact rational multiplication.
* Timestamps are `Nat`; `time.Since(t)` at current time `now` is `now - t`
  (truncated subtraction, adequate because wall-clock time is monotone here).
* The HTTP transport is a function from the attempt index to the response the
  transport delivers (`none` = transport-level error, Go `client.Get`/`client.Do`
  returning a non-nil error). The body of a secret-endpoint response is abstracted to
  the outcome of `json.Unmarshal` into `SecretResponse` (`malformed`, or the `result`
  string, with a missing field unmarshalling to `""` as in Go).
* Context cancellation is a predicate `cancelled : Nat → Bool`: `cancelled i` says the
  context's done channel fires during the backoff wait following attempt `i`.
* Go errors are modelled by the inductive `AppErr`, one constructor per distinct
  error construction site in the source.
-/

/-- Outcome of `json.Unmarshal` of a secret-endpoint body into `SecretResponse`
(`part_001`): either the JSON was malformed, or it yielded a `result` string
(missing field ⇒ `""`). -/
inductive SecretBody where
  | malformed
  | jsonResult (result : String)
deriving DecidableEq, Repr

/-- An HTTP response as delivered by the transport: status code and (abstracted) body. -/
structure HttpResponse where
  status : Nat
  body : SecretBody
deriving DecidableEq, Repr

/-- Errors of the program, one constructor per construction site in the Go source. -/
inductive AppErr where
  /-- `fmt.Errorf("failed to make request: %w", err)` — transport-level failure. -/
  | requestFailed
  /-- `fmt.Errorf("secret endpoint returned non-success status: %d %s", ...)`. -/
  | nonSuccessStatus (status : Nat)
  /-- `fmt.Errorf("failed to parse JSON response: %w", err)`. -/
  | parseFailed
  /-- `fmt.Errorf("empty result in secret response")`. -/
  | emptyResult
  /-- `RequiredField`: `fmt.Errorf("%s is required", fieldName)`. -/
  | fieldRequired (field : String)
  /-- `EmailFormat`: `fmt.Errorf("invalid email format")`. -/
  | invalidEmail
  /-- `MinLength`: `fmt.Errorf("must be at least %d characters", min)`. -/
  | tooShort (min : Nat)
  /-- `WrapValidationError` (`ErrCodeValidation`). -/
  | validationError (cause : AppErr)
  /-- `WrapAuthError` (`ErrCodeAuth`). -/
  | authError (cause : AppErr)
  /-- `WrapNetworkError` (`ErrCodeNetwork`). -/
  | networkError (cause : AppErr)
  /-- `NewAppError(ErrCodeTimeout, "Circuit breaker is open", nil)`. -/
  | circuitOpen
  /-- `NewAppError(ErrCodeUnexpected, "Operation failed after all retries", lastErr)`
  with a non-nil `lastErr`. -/
  | retriesExhausted (last : AppErr)
  /-- The same wrapping error with a nil `lastErr` (possible only when the retry
  loop body never ran, i.e. `MaxAttempts < 1`). -/
  | retriesExhaustedNil
  /-- `ctx.Err()` returned when the context fires during a backoff wait. -/
  | ctxCanceled
deriving DecidableEq, Repr

/-- `ApplicationData` (`part_001`), fields relevant to validation and submission.
`ExtraInformation` is an opaque value never inspected by the core and is elided. -/
structure ApplicationData where
  name : String
  email : String
  jobTitle : String
  finalAttempt : Option Bool := none
deriving DecidableEq, Repr

/-! ## HTTP helpers (`main.go`) -/

/-- `validateSecretResponse` (`main.go`): error for any status outside `[200, 300)`. -/
def validateSecretResponse (resp : HttpResponse) : Except AppErr Unit :=
  if resp.status < 200 ∨ 300 ≤ resp.status then
    .error (.nonSuccessStatus resp.status)
  else
    .ok ()

/-- `parseSecretResponse` (`main.go`): unmarshal the body, reject an empty `result`. -/
def parseSecretResponse (resp : HttpResponse) : Except AppErr String :=
  match resp.body with
  | .malformed => .error .parseFailed
  | .jsonResult r => if r = "" then .error .emptyResult else .ok r

/-- `getAuthTokenWithClient` (`main.go`): GET the secret URL, validate the status,
parse the token.  The argument is the response the transport delivered
(`none` = `client.Get` returned an error). -/
def getAuthTokenWithClient (resp? : Option HttpResponse) : Except AppErr String :=
  match resp? with
  | none => .error .requestFailed
  | some resp =>
    match validateSecretResponse resp with
    | .error e => .error e
    | .ok _ => parseSecretResponse resp

/-- `processApplicationResponse` (`main.go`): logs status and body and returns `nil`
regardless of the status code (the non-2xx case only prints a warning). -/
def processApplicationResponse (_resp : HttpResponse) : Except AppErr Unit :=
  .ok ()

/-- `submitApplicationWithClient` (`main.go`): POST the payload.  JSON marshalling of
`ApplicationData` and `http.NewRequest` cannot fail for the values in scope, so only
the transport call (`client.Do`) and response processing are modelled. -/
def submitApplicationWithClient (resp? : Option HttpResponse) : Except AppErr Unit :=
  match resp? with
  | none => .error .requestFailed
  | some resp => processApplicationResponse resp

/-! ## Payload validation (`config.go`) -/

/-- Go `strings.TrimSpace`: strip leading and trailing whitespace.  (Whitespace is
`Char.isWhitespace`; Go additionally strips a few rarer code points such as
`\v`, `\f` and `U+00A0`, which never occur in the properties below.) -/
def TrimSpace (s : String) : String :=
  ⟨List.reverse (List.dropWhile Char.isWhitespace
    (List.reverse (List.dropWhile Char.isWhitespace s.data)))⟩

/-- Go `strings.Contains(s, string(c))` for a one-character substring. -/
def strContains (s : String) (c : Char) : Bool :=
  s.data.contains c

/-- `RequiredField` (`config.go`): non-blank after trimming. -/
def RequiredField (field : String) (value : String) : Except AppErr Unit :=
  if TrimSpace value = "" then .error (.fieldRequired field) else .ok ()

/-- `EmailFormat` (`config.go`): must contain `@` and `.`. -/
def EmailFormat (value : String) : Except AppErr Unit :=
  if ¬ (strContains value '@' ∧ strContains value '.') then .error .invalidEmail
  else .ok ()

/-- `MinLength` (`config.go`): trimmed length at least `min`.  (Go measures the
byte length of the trimmed string; the model measures characters, which agrees on
ASCII data.) -/
def MinLength (min : Nat) (value : String) : Except AppErr Unit :=
  if (TrimSpace value).length < min then .error (.tooShort min) else .ok ()

/-- `validateApplicationDataFunctional` (`config.go`): three validators run in order
(name: required, min length 2; email: required, email format; job title: required,
min length 3), returning the first rule error. -/
def validateApplicationDataFunctional (d : ApplicationData) :
    Except AppErr ApplicationData :=
  match RequiredField "name" d.name with
  | .error e => .error e
  | .ok _ =>
  match MinLength 2 d.name with
  | .error e => .error e
  | .ok _ =>
  match RequiredField "email" d.email with
  | .error e => .error e
  | .ok _ =>
  match EmailFormat d.email with
  | .error e => .error e
  | .ok _ =>
  match RequiredField "job_title" d.jobTitle with
  | .error e => .error e
  | .ok _ =>
  match MinLength 3 d.jobTitle with
  | .error e => .error e
  | .ok _ => .ok d

/-! ## Retry executor (`part_006`) -/

/-- `RetryConfig` (`part_006`).  Delays in nanoseconds as exact rationals. -/
structure RetryConfig where
  maxAttempts : Nat
  initialDelay : ℚ
  maxDelay : ℚ
  multiplier : ℚ
deriving DecidableEq, Repr

/-- `DefaultRetryConfig` (`part_006`): 3 attempts, 1 s initial delay, 30 s cap, ×2. -/
def DefaultRetryConfig : RetryConfig :=
  { maxAttempts := 3
    initialDelay := 1000000000
    maxDelay := 30000000000
    multiplier := 2 }

/-- Result of a `WithRetry` execution. -/
inductive RetryResult (E α : Type) where
  /-- The operation returned success on some attempt; `WithRetry` returns `nil`. -/
  | ok (value : α)
  /-- The context fired during a backoff wait; `WithRetry` returns `ctx.Err()`. -/
  | canceled
  /-- All attempts failed; `WithRetry` returns the wrapping "exhausted" error
  carrying the last underlying error. -/
  | exhausted (last : Option E)
deriving DecidableEq, Repr

/-- The loop body of `WithRetry` (`part_006`), from loop counter `attempt` with the
current `delay` and the last error seen.  `fuel` is the number of iterations the
`for attempt := attempt; attempt <= maxAttempts; attempt++` loop may still perform,
i.e. `maxAttempts + 1 - attempt` (lastErr stays `none` once the body has run, so
`fuel = 0` returning `exhausted lastErr` is the loop falling through to
`return NewAppError(..., lastErr)`).  Returns the outcome together with the number
of invocations of `fn` performed and the list of backoff waits completed (each
entry is the duration actually waited, in order). -/
def retryLoop {E α : Type} (fn : Nat → Except E α) (cancelled : Nat → Bool)
    (multiplier maxDelay : ℚ) (maxAttempts : Nat) :
    Nat → Nat → ℚ → Option E → RetryResult E α × Nat × List ℚ
  | 0, _, _, lastErr => (.exhausted lastErr, 0, [])
  | fuel + 1, attempt, delay, lastErr =>
    match fn attempt with
    | .ok a => (.ok a, 1, [])
    | .error e =>
      if attempt = maxAttempts then
        (.exhausted (some e), 1, [])
      else if cancelled attempt then
        (.canceled, 1, [])
      else
        let rest := retryLoop fn cancelled multiplier maxDelay maxAttempts fuel
          (attempt + 1) (min (delay * multiplier) maxDelay) (some e)
        (rest.1, rest.2.1 + 1, delay :: rest.2.2)

/-- `WithRetry` (`part_006`): run `fn` up to `config.maxAttempts` times, starting at
attempt 1 with `config.initialDelay` and fuel `config.maxAttempts`, which is the
number of iterations the for-loop can perform from attempt 1. -/
def WithRetry {E α : Type} (config : RetryConfig) (cancelled : Nat → Bool)
    (fn : Nat → Except E α) : RetryResult E α × Nat × List ℚ :=
  retryLoop fn cancelled config.multiplier config.maxDelay config.maxAttempts
    config.maxAttempts 1 config.initialDelay none

/-- The backoff delay sequence determined by `start`, `multiplier` and `maxDelay`:
`capSeq 0 = start`, `capSeq (i+1) = min (capSeq i * multiplier) maxDelay`. -/
def capSeq (multiplier maxDelay start : ℚ) : Nat → ℚ
  | 0 => start
  | i + 1 => min (capSeq multiplier maxDelay start i * multiplier) maxDelay

/-- The delay sequence of a `RetryConfig`: the wait preceding attempt `i + 2` is
`delaySeq config (i + 1)`, starting from `delaySeq config 0 = initialDelay`. -/
def delaySeq (config : RetryConfig) : Nat → ℚ :=
  capSeq config.multiplier config.maxDelay config.initialDelay

/-! ## Circuit breaker (`part_006`) -/

/-- `CircuitState` (`part_006`). -/
inductive CircuitState where
  | CircuitClosed
  | CircuitOpen
  | CircuitHalfOpen
deriving DecidableEq, Repr

/-- `CircuitBreaker` (`part_006`).  `lastFailTime` and `resetTimeout` are in the
same (abstract) time unit; the Go zero time is modelled as `0`. -/
structure CircuitBreaker where
  maxFailures : Nat
  resetTimeout : Nat
  failures : Nat
  lastFailTime : Nat
  state : CircuitState
deriving DecidableEq, Repr

/-- `NewCircuitBreaker` (`part_006`): closed, zero failures. -/
def NewCircuitBreaker (maxFailures resetTimeout : Nat) : CircuitBreaker :=
  { maxFailures := maxFailures
    resetTimeout := resetTimeout
    failures := 0
    lastFailTime := 0
    state := .CircuitClosed }

/-- `CircuitBreaker.onFailure` (`part_006`): increment the failure count, stamp the
failure time, open the circuit once the threshold is reached. -/
def CircuitBreaker.onFailure (cb : CircuitBreaker) (now : Nat) : CircuitBreaker :=
  let cb1 := { cb with failures := cb.failures + 1, lastFailTime := now }
  if cb1.maxFailures ≤ cb1.failures then { cb1 with state := .CircuitOpen } else cb1

/-- `CircuitBreaker.onSuccess` (`part_006`): reset the failure count and close. -/
def CircuitBreaker.onSuccess (cb : CircuitBreaker) : CircuitBreaker :=
  { cb with failures := 0, state := .CircuitClosed }

/-- Outcome of a `CircuitBreaker.Call`. -/
inductive CallOutcome (E : Type) where
  /-- The breaker was open within the cooldown: the "circuit open" error is
  returned and the operation is not invoked. -/
  | rejected
  /-- The operation was invoked and returned error `e` (propagated to the caller). -/
  | failed (e : E)
  /-- The operation was invoked and succeeded. -/
  | succeeded
deriving DecidableEq, Repr

/-- `CircuitBreaker.Call` (`part_006`): reject when open within the cooldown,
half-open after the cooldown, otherwise invoke `fn` and update the state.  `fn` is
a thunk: in the rejected branch it is never applied. -/
def CircuitBreaker.Call {E : Type} (cb : CircuitBreaker) (now : Nat)
    (fn : Unit → Option E) : CircuitBreaker × CallOutcome E :=
  if cb.state = .CircuitOpen ∧ ¬ cb.resetTimeout < now - cb.lastFailTime then
    (cb, .rejected)
  else
    let cb1 := if cb.state = .CircuitOpen then
      { cb with state := .CircuitHalfOpen } else cb
    match fn () with
    | some e => (cb1.onFailure now, .failed e)
    | none => (cb1.onSuccess, .succeeded)

/-! ## Orchestrator (`part_002`) -/

/-- Convert a `RetryResult` into the Go error value `WithRetry` returns
(`nil` / `ctx.Err()` / the wrapping "exhausted" `AppError`). -/
def retryError {α : Type} (r : RetryResult AppErr α) : Option AppErr :=
  match r with
  | .ok _ => none
  | .canceled => some .ctxCanceled
  | .exhausted (some e) => some (.retriesExhausted e)
  | .exhausted none => some .retriesExhaustedNil

/-- The token-fetch operation passed to `WithRetry` by `fetchTokenWithRetry`
(`part_002`): fetch errors are wrapped in `WrapAuthError`.  `getR k` is the
response the transport delivers to the k-th GET. -/
def fetchTokenOp (getR : Nat → Option HttpResponse) (attempt : Nat) :
    Except AppErr String :=
  match getAuthTokenWithClient (getR attempt) with
  | .error e => .error (.authError e)
  | .ok t => .ok t

/-- `fetchTokenWithRetry` (`part_002`): `WithRetry` with `DefaultRetryConfig`
around the token fetch. -/
def fetchTokenWithRetry (cancelled : Nat → Bool) (getR : Nat → Option HttpResponse) :
    RetryResult AppErr String × Nat × List ℚ :=
  WithRetry DefaultRetryConfig cancelled (fetchTokenOp getR)

/-- `fetchTokenWithResilience` (`part_002`): the retry executor wrapped in
`CircuitBreaker.Call`.  Returns the token-or-error, the updated breaker, and the
number of GET transport calls performed (0 when the breaker rejected, because the
wrapped closure is then never invoked). -/
def fetchTokenWithResilience (cb : CircuitBreaker) (now : Nat)
    (cancelled : Nat → Bool) (getR : Nat → Option HttpResponse) :
    Except AppErr String × CircuitBreaker × Nat :=
  let retry := fetchTokenWithRetry cancelled getR
  let c := cb.Call now fun _ => retryError retry.1
  match c.2 with
  | .rejected => (.error .circuitOpen, c.1, 0)
  | .failed e => (.error e, c.1, retry.2.1)
  | .succeeded =>
    match retry.1 with
    | .ok t => (.ok t, c.1, retry.2.1)
    | .canceled => (.error .ctxCanceled, c.1, retry.2.1)
    | .exhausted (some e) => (.error (.retriesExhausted e), c.1, retry.2.1)
    | .exhausted none => (.error .retriesExhaustedNil, c.1, retry.2.1)

/-- The submission operation passed to `WithRetry` by `submitWithResilience`
(`part_002`): submission errors are wrapped in `WrapNetworkError`.  `postR k` is
the response the transport delivers to the k-th POST. -/
def submitOp (postR : Nat → Option HttpResponse) (attempt : Nat) :
    Except AppErr Unit :=
  match submitApplicationWithClient (postR attempt) with
  | .error e => .error (.networkError e)
  | .ok _ => .ok ()

/-- `submitWithResilience` (`part_002`): `WithRetry` with `DefaultRetryConfig`
around the submission.  Note: no circuit breaker appears here in the source. -/
def submitWithResilience (cancelled : Nat → Bool)
    (postR : Nat → Option HttpResponse) : RetryResult AppErr Unit × Nat × List ℚ :=
  WithRetry DefaultRetryConfig cancelled (submitOp postR)

deriving instance DecidableEq for Except

/-- Observable outcome of one `SubmitApplication` run: the returned error value,
the final circuit-breaker state, and the number of GET and POST transport calls. -/
structure SubmitTrace where
  result : Except AppErr Unit
  breaker : CircuitBreaker
  getCalls : Nat
  postCalls : Nat
deriving DecidableEq, Repr

/-- `ApplicationService.SubmitApplication` (`part_002`): validate, fetch the token
through breaker + retry, then submit through retry alone; each step
short-circuits on error. -/
def SubmitApplication (cb : CircuitBreaker) (now : Nat)
    (cancelledFetch cancelledSubmit : Nat → Bool)
    (getR postR : Nat → Option HttpResponse) (appData : ApplicationData) :
    SubmitTrace :=
  match validateApplicationDataFunctional appData with
  | .error e => ⟨.error (.validationError e), cb, 0, 0⟩
  | .ok _ =>
    match fetchTokenWithResilience cb now cancelledFetch getR with
    | (.error e, cb1, g) => ⟨.error e, cb1, g, 0⟩
    | (.ok _token, cb1, g) =>
      let sub := submitWithResilience cancelledSubmit postR
      match retryError sub.1 with
      | some e => ⟨.error e, cb1, g, sub.2.1⟩
      | none => ⟨.ok (), cb1, g, sub.2.1⟩

/-! ## Auxiliary definitions used by the statements -/

/-- A sequence of `Call`s whose wrapped operation fails, call `i` made at time
`calls[i].1` with underlying error `calls[i].2`; returns the final breaker. -/
def failCalls {E : Type} (cb : CircuitBreaker) (calls : List (Nat × E)) :
    CircuitBreaker :=
  calls.foldl (fun acc c => (acc.Call c.1 fun _ => some c.2).1) cb

/-- The circuit-breaker invariant of claim C10: the threshold is positive and the
breaker is OPEN or HALF_OPEN exactly when the failure count has reached it. -/
def BreakerInv (cb : CircuitBreaker) : Prop :=
  1 ≤ cb.maxFailures ∧
    ((cb.state = .CircuitOpen ∨ cb.state = .CircuitHalfOpen) ↔
      cb.maxFailures ≤ cb.failures)

instance (cb : CircuitBreaker) : Decidable (BreakerInv cb) := by
  unfold BreakerInv; infer_instance

/-- A payload passing validation, used to instantiate witnesses. -/
def sampleData : ApplicationData :=
  ⟨"John Doe", "john@example.com", "Software Engineer", none⟩

/-! ## Spec-modelled definitions (for refinement comparisons only)

These definitions follow the specification's words, not the source; they exist to
be compared with the source-derived definitions above. -/

/-- Modelled from the spec (§4.3 step 1): the acceptance predicate the spec claims
for payload validation — non-blank name/email/job_title and an email containing
both `@` and `.`.  Compared against `validateApplicationDataFunctional`. -/
def specValidationAccepts (d : ApplicationData) : Bool :=
  ¬ TrimSpace d.name = "" ∧ ¬ TrimSpace d.email = "" ∧ ¬ TrimSpace d.jobTitle = "" ∧
    strContains d.email '@' ∧ strContains d.email '.'

/-- Modelled from the spec (§4.3 step 3): the submission step as the spec describes
it — `breaker.Call(ctx, () => withRetry(...))`, i.e. the retry-wrapped submission
executed through the circuit breaker.  Compared against `submitWithResilience`
composed into `SubmitApplication`. -/
def specSubmitStep (cb : CircuitBreaker) (now : Nat) (cancelled : Nat → Bool)
    (postR : Nat → Option HttpResponse) : CircuitBreaker × CallOutcome AppErr :=
  cb.Call now fun _ => retryError (submitWithResilience cancelled postR).1

/-! ## Helper lemmas: retry executor -/

/-- The retry loop invokes the operation at least once when it has fuel left. -/
theorem retryLoop_pos {E α : Type} (fn : Nat → Except E α) (cancelled : Nat → Bool)
    (m M : ℚ) (maxA fuel attempt : Nat) (delay : ℚ) (lastErr : Option E)
    (h : 1 ≤ fuel) :
    1 ≤ (retryLoop fn cancelled m M maxA fuel attempt delay lastErr).2.1 := by
  cases fuel with
  | zero => omega
  | succ f =>
    unfold retryLoop
    split
    · simp
    · split
      · simp
      · split
        · simp
        · simp

/-- Shifting the cap-and-multiply delay sequence by one step. -/
theorem capSeq_shift (m M d : ℚ) (i : Nat) :
    capSeq m M d (i + 1) = capSeq m M (min (d * m) M) i := by
  induction i with
  | zero => rfl
  | succ i ih => rw [capSeq, ih, capSeq]

/-- Retry loop, success case: if attempt `attempt + d` is the first succeeding
attempt at or after `attempt`, the loop returns its value after exactly `d + 1`
invocations (no cancellation). -/
theorem retryLoop_success {E α : Type} (fn : Nat → Except E α) (m M : ℚ)
    (maxA : Nat) (a : α) :
    ∀ (d fuel attempt : Nat) (delay : ℚ) (lastErr : Option E),
      d < fuel →
      attempt + d ≤ maxA →
      fn (attempt + d) = .ok a →
      (∀ j, attempt ≤ j → j < attempt + d → ∃ e, fn j = .error e) →
      (retryLoop fn (fun _ => false) m M maxA fuel attempt delay lastErr).1 = .ok a ∧
      (retryLoop fn (fun _ => false) m M maxA fuel attempt delay lastErr).2.1 = d + 1 := by
  intro d
  induction d with
  | zero =>
    intro fuel attempt delay lastErr hfuel _hle hok _hfail
    obtain ⟨f, rfl⟩ : ∃ f, fuel = f + 1 := ⟨fuel - 1, by omega⟩
    rw [Nat.add_zero] at hok
    unfold retryLoop
    rw [hok]
    exact ⟨rfl, rfl⟩
  | succ d ih =>
    intro fuel attempt delay lastErr hfuel hle hok hfail
    obtain ⟨f, rfl⟩ : ∃ f, fuel = f + 1 := ⟨fuel - 1, by omega⟩
    obtain ⟨e, he⟩ := hfail attempt le_rfl (by omega)
    have hne : ¬ attempt = maxA := by omega
    have hrest := ih f (attempt + 1) (min (delay * m) M) (some e) (by omega) (by omega)
      (by rw [show attempt + 1 + d = attempt + (d + 1) by omega]; exact hok)
      (fun j hj1 hj2 => hfail j (by omega) (by omega))
    unfold retryLoop
    rw [he]
    dsimp only
    rw [if_neg hne, if_neg (by simp)]
    dsimp only
    rw [hrest.1, hrest.2]
    exact ⟨rfl, rfl⟩

/-- Retry loop, exhaustion case: if every attempt from `attempt` to `maxA` fails and
`fn maxA = .error eN`, the loop performs `d + 1 = maxA - attempt + 1` invocations
and returns the exhausted error carrying `eN` (no cancellation). -/
theorem retryLoop_allfail {E α : Type} (fn : Nat → Except E α) (m M : ℚ)
    (maxA : Nat) (eN : E) (hN : fn maxA = .error eN) :
    ∀ (d fuel attempt : Nat) (delay : ℚ) (lastErr : Option E),
      d < fuel →
      attempt + d = maxA →
      (∀ j, attempt ≤ j → j < maxA → ∃ e, fn j = .error e) →
      (retryLoop fn (fun _ => false) m M maxA fuel attempt delay lastErr).1 =
        .exhausted (some eN) ∧
      (retryLoop fn (fun _ => false) m M maxA fuel attempt delay lastErr).2.1 = d + 1 := by
  intro d
  induction d with
  | zero =>
    intro fuel attempt delay lastErr hfuel hle _hfail
    obtain ⟨f, rfl⟩ : ∃ f, fuel = f + 1 := ⟨fuel - 1, by omega⟩
    have : attempt = maxA := by omega
    subst this
    unfold retryLoop
    rw [hN]
    dsimp only
    rw [if_pos rfl]
    exact ⟨rfl, rfl⟩
  | succ d ih =>
    intro fuel attempt delay lastErr hfuel hle hfail
    obtain ⟨f, rfl⟩ : ∃ f, fuel = f + 1 := ⟨fuel - 1, by omega⟩
    obtain ⟨e, he⟩ := hfail attempt le_rfl (by omega)
    have hne : ¬ attempt = maxA := by omega
    have hrest := ih f (attempt + 1) (min (delay * m) M) (some e) (by omega) (by omega)
      (fun j hj1 hj2 => hfail j (by omega) hj2)
    unfold retryLoop
    rw [he]
    dsimp only
    rw [if_neg hne, if_neg (by simp)]
    dsimp only
    rw [hrest.1, hrest.2]
    exact ⟨rfl, rfl⟩

/-- Retry loop, cancellation case: if attempts `attempt..k` all fail, no earlier wait
is cancelled, attempt `k` is not the last one, and the context fires during the wait
after attempt `k`, the loop returns the cancellation outcome after `d + 1 = k -
attempt + 1` invocations. -/
theorem retryLoop_canceled {E α : Type} (fn : Nat → Except E α)
    (cancelled : Nat → Bool) (m M : ℚ) (maxA k : Nat) (hk : k < maxA)
    (hck : cancelled k = true) :
    ∀ (d fuel attempt : Nat) (delay : ℚ) (lastErr : Option E),
      d < fuel →
      attempt + d = k →
      (∀ j, attempt ≤ j → j ≤ k → ∃ e, fn j = .error e) →
      (∀ j, attempt ≤ j → j < k → cancelled j = false) →
      (retryLoop fn cancelled m M maxA fuel attempt delay lastErr).1 = .canceled ∧
      (retryLoop fn cancelled m M maxA fuel attempt delay lastErr).2.1 = d + 1 := by
  intro d
  induction d with
  | zero =>
    intro fuel attempt delay lastErr hfuel hd hfail _hquiet
    obtain ⟨f, rfl⟩ : ∃ f, fuel = f + 1 := ⟨fuel - 1, by omega⟩
    have : attempt = k := by omega
    subst this
    obtain ⟨e, he⟩ := hfail attempt le_rfl le_rfl
    unfold retryLoop
    rw [he]
    dsimp only
    rw [if_neg (by omega : ¬ attempt = maxA), if_pos hck]
    exact ⟨rfl, rfl⟩
  | succ d ih =>
    intro fuel attempt delay lastErr hfuel hd hfail hquiet
    obtain ⟨f, rfl⟩ : ∃ f, fuel = f + 1 := ⟨fuel - 1, by omega⟩
    obtain ⟨e, he⟩ := hfail attempt le_rfl (by omega)
    have hq : cancelled attempt = false := hquiet attempt le_rfl (by omega)
    have hrest := ih f (attempt + 1) (min (delay * m) M) (some e) (by omega) (by omega)
      (fun j hj1 hj2 => hfail j (by omega) hj2)
      (fun j hj1 hj2 => hquiet j (by omega) hj2)
    unfold retryLoop
    rw [he]
    dsimp only
    rw [if_neg (by omega : ¬ attempt = maxA), if_neg (by simp [hq])]
    dsimp only
    rw [hrest.1, hrest.2]
    exact ⟨rfl, rfl⟩

/-- Retry loop, backoff schedule: when the fuel agrees with the loop bound, the
waits completed are exactly the first `n - 1` terms of the cap-and-multiply
sequence started at the current delay, where `n` is the number of invocations
performed (any cancellation behaviour). -/
theorem retryLoop_waits {E α : Type} (fn : Nat → Except E α)
    (cancelled : Nat → Bool) (m M : ℚ) (maxA : Nat) :
    ∀ (fuel attempt : Nat) (delay : ℚ) (lastErr : Option E),
      fuel + attempt = maxA + 1 →
      (retryLoop fn cancelled m M maxA fuel attempt delay lastErr).2.2 =
        (List.range
          ((retryLoop fn cancelled m M maxA fuel attempt delay lastErr).2.1 - 1)).map
          (capSeq m M delay) := by
  intro fuel
  induction fuel with
  | zero =>
    intro attempt delay lastErr _hinv
    simp [retryLoop]
  | succ f ih =>
    intro attempt delay lastErr hinv
    cases he : fn attempt with
    | ok a =>
      unfold retryLoop
      rw [he]
      simp
    | error e =>
      by_cases hne : attempt = maxA
      · unfold retryLoop
        rw [he]
        dsimp only
        rw [if_pos hne]
        simp
      · by_cases hc : cancelled attempt = true
        · unfold retryLoop
          rw [he]
          dsimp only
          rw [if_neg hne, if_pos hc]
          simp
        · have hf1 : 1 ≤ f := by omega
          have hpos := retryLoop_pos fn cancelled m M maxA f (attempt + 1)
            (min (delay * m) M) (some e) hf1
          have hih := ih (attempt + 1) (min (delay * m) M) (some e) (by omega)
          unfold retryLoop
          rw [he]
          dsimp only
          rw [if_neg hne, if_neg hc]
          dsimp only
          set X := retryLoop fn cancelled m M maxA f (attempt + 1)
            (min (delay * m) M) (some e) with hX
          rw [Nat.add_sub_cancel]
          rw [show X.2.1 = (X.2.1 - 1) + 1 by omega]
          rw [List.range_succ_eq_map, List.map_cons, List.map_map]
          have hfun : capSeq m M delay ∘ Nat.succ = capSeq m M (min (delay * m) M) :=
            funext fun i => capSeq_shift m M delay i
          rw [hfun, ← hih]
          rfl

/-! ## Helper lemmas: circuit breaker -/

/-- An OPEN breaker within the cooldown rejects the call, leaves the breaker
unchanged, and never applies the operation thunk. -/
theorem Call_open_within_cooldown {E : Type} (cb : CircuitBreaker) (now : Nat)
    (fn : Unit → Option E) (hs : cb.state = .CircuitOpen)
    (ht : now - cb.lastFailTime ≤ cb.resetTimeout) :
    cb.Call now fn = (cb, .rejected) := by
  unfold CircuitBreaker.Call
  rw [if_pos ⟨hs, by omega⟩]

/-- A CLOSED breaker invokes the failing operation and applies `onFailure`. -/
theorem Call_closed_fails {E : Type} (cb : CircuitBreaker) (now : Nat) (e : E)
    (hs : cb.state = .CircuitClosed) :
    (cb.Call now fun _ => some e) = (cb.onFailure now, .failed e) := by
  unfold CircuitBreaker.Call
  rw [if_neg (by simp [hs])]
  dsimp only
  rw [if_neg (by simp [hs])]

/-- `maxFailures` consecutive failing calls starting from a CLOSED breaker whose
failure count is `maxFailures` minus the number of calls leave the breaker OPEN
with the failure count at the threshold (other fields preserved). -/
theorem failCalls_opens {E : Type} :
    ∀ (calls : List (Nat × E)) (cb : CircuitBreaker),
      cb.state = .CircuitClosed →
      cb.failures + calls.length = cb.maxFailures →
      calls ≠ [] →
      (failCalls cb calls).state = .CircuitOpen ∧
      (failCalls cb calls).failures = cb.maxFailures ∧
      (failCalls cb calls).maxFailures = cb.maxFailures ∧
      (failCalls cb calls).resetTimeout = cb.resetTimeout := by
  intro calls
  induction calls with
  | nil => intro cb _ _ hne; exact absurd rfl hne
  | cons t ts ih =>
    intro cb hclosed hcount _
    have hstep : failCalls cb (t :: ts) =
        failCalls ((cb.Call t.1 fun _ => some t.2).1) ts := rfl
    have hcall : (cb.Call t.1 fun _ => some t.2).1 = cb.onFailure t.1 := by
      rw [Call_closed_fails cb t.1 t.2 hclosed]
    by_cases hts : ts = []
    · subst hts
      simp only [List.length_cons, List.length_nil, Nat.zero_add] at hcount
      have hth : cb.maxFailures ≤ cb.failures + 1 := by omega
      rw [hstep, hcall]
      unfold CircuitBreaker.onFailure
      dsimp only
      rw [if_pos hth]
      refine ⟨rfl, ?_, rfl, rfl⟩
      dsimp [failCalls]
      omega
    · have hts1 : 1 ≤ ts.length := List.length_pos.mpr hts
      simp only [List.length_cons] at hcount
      have hlt : ¬ cb.maxFailures ≤ cb.failures + 1 := by omega
      rw [hstep, hcall]
      unfold CircuitBreaker.onFailure
      dsimp only
      rw [if_neg hlt]
      exact ih { cb with failures := cb.failures + 1, lastFailTime := t.1 }
        hclosed (by dsimp only; omega) hts

/-! ## Claim theorems -/

/-- C2: the secret fetch errors for every HTTP status outside `[200, 300)` and only
for those, while the submission path treats every response the transport delivers
as success regardless of its status code: `processApplicationResponse` and
`submitApplicationWithClient` never surface a status error, and an orchestrator run
whose submission endpoint returns an arbitrary status (with a good token fetch)
reports overall success. -/
theorem c2_secret_strict_submission_lenient :
    (∀ resp : HttpResponse,
        validateSecretResponse resp = .ok () ↔ 200 ≤ resp.status ∧ resp.status < 300) ∧
    (∀ resp : HttpResponse, processApplicationResponse resp = .ok ()) ∧
    (∀ resp : HttpResponse, submitApplicationWithClient (some resp) = .ok ()) ∧
    (∀ (s : Nat) (body : SecretBody) (rT now : Nat),
        (SubmitApplication (NewCircuitBreaker 3 rT) now (fun _ => false)
          (fun _ => false) (fun _ => some ⟨200, .jsonResult "tok-1"⟩)
          (fun _ => some ⟨s, body⟩) sampleData).result = .ok ()) := by
  refine ⟨?_, fun _ => rfl, fun _ => rfl, fun _ _ _ _ => rfl⟩
  intro resp
  unfold validateSecretResponse
  split_ifs with h
  · simp only [reduceCtorEq, false_iff]
    omega
  · simp only [true_iff]
    omega

/-- C3: for `1 ≤ maxAttempts`, `WithRetry` invokes the operation exactly `k` times
and returns its value when attempt `k ≤ maxAttempts` is the first success, and
invokes it exactly `maxAttempts` times returning the wrapped exhausted error
carrying the last underlying error when every attempt fails. -/
theorem c3_retry_invocation_count {E α : Type} (config : RetryConfig)
    (fn : Nat → Except E α) (hN : 1 ≤ config.maxAttempts) :
    (∀ (k : Nat) (a : α), 1 ≤ k → k ≤ config.maxAttempts → fn k = .ok a →
      (∀ j, 1 ≤ j → j < k → ∃ e, fn j = .error e) →
      (WithRetry config (fun _ => false) fn).1 = .ok a ∧
      (WithRetry config (fun _ => false) fn).2.1 = k) ∧
    (∀ eN : E, fn config.maxAttempts = .error eN →
      (∀ j, 1 ≤ j → j < config.maxAttempts → ∃ e, fn j = .error e) →
      (WithRetry config (fun _ => false) fn).1 = .exhausted (some eN) ∧
      (WithRetry config (fun _ => false) fn).2.1 = config.maxAttempts) := by
  constructor
  · intro k a hk1 hk2 hok hfail
    have h := retryLoop_success fn config.multiplier config.maxDelay
      config.maxAttempts a (k - 1) config.maxAttempts 1 config.initialDelay none
      (by omega) (by omega)
      (by rw [show 1 + (k - 1) = k by omega]; exact hok)
      (fun j hj1 hj2 => hfail j hj1 (by omega))
    refine ⟨h.1, ?_⟩
    rw [WithRetry] at *
    omega
  · intro eN hN' hfail
    have h := retryLoop_allfail fn config.multiplier config.maxDelay
      config.maxAttempts eN hN' (config.maxAttempts - 1) config.maxAttempts 1
      config.initialDelay none (by omega) (by omega)
      (fun j hj1 hj2 => hfail j hj1 hj2)
    refine ⟨h.1, ?_⟩
    rw [WithRetry] at *
    omega

/-- C3 witness: with the default config (3 attempts), an operation failing on
attempt 1 and succeeding on attempt 2 is invoked exactly twice and succeeds. -/
theorem c3_retry_invocation_count_witness :
    (WithRetry DefaultRetryConfig (fun _ => false)
      (fun k => if k = 2 then .ok 0 else .error 5)).1 = .ok 0 ∧
    (WithRetry DefaultRetryConfig (fun _ => false)
      (fun k => if k = 2 then .ok 0 else .error 5)).2.1 = 2 :=
  (c3_retry_invocation_count DefaultRetryConfig
      (fun k => if k = 2 then (.ok 0 : Except Nat Nat) else .error 5)
      (by decide)).1 2 0 (by decide) (by decide) (by decide)
    (fun j hj1 hj2 => ⟨5, by
      have : j = 1 := by omega
      subst this
      rfl⟩)

/-- C8: the backoff waits of a `WithRetry` run are exactly the first `n - 1` terms
of the sequence `delaySeq` with `delaySeq 0 = initialDelay` and
`delaySeq (i+1) = min (delaySeq i * multiplier) maxDelay`, where `n` is the number
of invocations performed — in particular no wait follows the final attempt. -/
theorem c8_backoff_schedule {E α : Type} (config : RetryConfig)
    (cancelled : Nat → Bool) (fn : Nat → Except E α) :
    delaySeq config 0 = config.initialDelay ∧
    (∀ i, delaySeq config (i + 1) =
      min (delaySeq config i * config.multiplier) config.maxDelay) ∧
    (WithRetry config cancelled fn).2.2 =
      (List.range ((WithRetry config cancelled fn).2.1 - 1)).map (delaySeq config) ∧
    (WithRetry config cancelled fn).2.2.length =
      (WithRetry config cancelled fn).2.1 - 1 := by
  have h := retryLoop_waits fn cancelled config.multiplier config.maxDelay
    config.maxAttempts config.maxAttempts 1 config.initialDelay none (by omega)
  refine ⟨rfl, fun i => rfl, h, ?_⟩
  rw [WithRetry] at *
  rw [h]
  simp

/-- C9: if every attempt up to `k` fails, no earlier wait is interrupted, `k` is not
the final attempt, and the context fires during the backoff wait after attempt `k`,
then `WithRetry` returns the context's cancellation error with exactly `k`
invocations (the operation is not invoked again) and only `k - 1` completed waits
(the cancelled wait is not completed). -/
theorem c9_cancel_during_backoff {E α : Type} (config : RetryConfig)
    (cancelled : Nat → Bool) (fn : Nat → Except E α) (k : Nat)
    (hk1 : 1 ≤ k) (hk2 : k < config.maxAttempts)
    (hfail : ∀ j, 1 ≤ j → j ≤ k → ∃ e, fn j = .error e)
    (hquiet : ∀ j, 1 ≤ j → j < k → cancelled j = false)
    (hck : cancelled k = true) :
    (WithRetry config cancelled fn).1 = .canceled ∧
    (WithRetry config cancelled fn).2.1 = k ∧
    (WithRetry config cancelled fn).2.2.length = k - 1 := by
  have h := retryLoop_canceled fn cancelled config.multiplier config.maxDelay
    config.maxAttempts k hk2 hck (k - 1) config.maxAttempts 1 config.initialDelay
    none (by omega) (by omega) (fun j hj1 hj2 => hfail j hj1 hj2)
    (fun j hj1 hj2 => hquiet j hj1 hj2)
  have hw := retryLoop_waits fn cancelled config.multiplier config.maxDelay
    config.maxAttempts config.maxAttempts 1 config.initialDelay none (by omega)
  rw [WithRetry] at *
  refine ⟨h.1, by omega, ?_⟩
  rw [hw, h.2]
  simp

/-- C9 witness: with the default config, an always-failing operation whose first
backoff wait is cancelled returns the cancellation outcome after exactly one
invocation and no completed waits. -/
theorem c9_cancel_during_backoff_witness :
    (WithRetry DefaultRetryConfig (fun j => j = 1)
      (fun _ => (.error 5 : Except Nat Unit))).1 = .canceled ∧
    (WithRetry DefaultRetryConfig (fun j => j = 1)
      (fun _ => (.error 5 : Except Nat Unit))).2.1 = 1 ∧
    (WithRetry DefaultRetryConfig (fun j => j = 1)
      (fun _ => (.error 5 : Except Nat Unit))).2.2.length = 1 - 1 :=
  c9_cancel_during_backoff DefaultRetryConfig (fun j => j = 1)
    (fun _ => (.error 5 : Except Nat Unit)) 1 (by decide) (by decide)
    (fun j hj1 hj2 => ⟨5, rfl⟩) (fun j hj1 hj2 => by omega) (by decide)

/-- C4: after `maxFailures ≥ 1` consecutive failing calls from a fresh breaker, the
breaker is OPEN with the failure count at the threshold, and any next call made
while the elapsed time since the last failure is at most `resetTimeout` returns the
"circuit open" rejection with the breaker unchanged, for every wrapped operation
(in particular the operation is not invoked). -/
theorem c4_threshold_opens_and_rejects {E : Type} (maxF rT : Nat) (hF : 1 ≤ maxF)
    (calls : List (Nat × E)) (hlen : calls.length = maxF) :
    (failCalls (NewCircuitBreaker maxF rT) calls).state = .CircuitOpen ∧
    (failCalls (NewCircuitBreaker maxF rT) calls).failures = maxF ∧
    ∀ (now : Nat) (fn : Unit → Option E),
      now - (failCalls (NewCircuitBreaker maxF rT) calls).lastFailTime ≤ rT →
      (failCalls (NewCircuitBreaker maxF rT) calls).Call now fn =
        (failCalls (NewCircuitBreaker maxF rT) calls, .rejected) := by
  have hne : calls ≠ [] := by
    intro h
    rw [h] at hlen
    simp at hlen
    omega
  have h := failCalls_opens calls (NewCircuitBreaker maxF rT) rfl
    (by simp [NewCircuitBreaker, hlen]) hne
  refine ⟨h.1, h.2.1, fun now fn ht => ?_⟩
  exact Call_open_within_cooldown _ now fn h.1 (by rw [h.2.2.2]; exact ht)

/-- C4 witness: threshold 2, two failing calls, then a call within the cooldown is
rejected unchanged. -/
theorem c4_threshold_opens_and_rejects_witness :
    (failCalls (NewCircuitBreaker 2 10) [(1, 5), (2, 5)]).state = .CircuitOpen ∧
    (failCalls (NewCircuitBreaker 2 10) [(1, 5), (2, 5)]).failures = 2 ∧
    (failCalls (NewCircuitBreaker 2 10) [(1, 5), (2, 5)]).Call 7
        (fun _ => (none : Option Nat)) =
      (failCalls (NewCircuitBreaker 2 10) [(1, 5), (2, 5)], .rejected) := by
  have h := c4_threshold_opens_and_rejects 2 10 (by decide) [(1, 5), (2, 5)] (by decide)
  exact ⟨h.1, h.2.1, h.2.2 7 (fun _ => (none : Option Nat)) (by decide)⟩

/-- C5: a call arriving at an OPEN breaker strictly after the cooldown runs the
operation as a half-open trial: on success the failure count resets to 0 and the
state becomes CLOSED; on failure the failure count increments, the failure time is
stamped, and the breaker is OPEN again exactly when the incremented count reaches
the threshold. -/
theorem c5_halfopen_trial {E : Type} (cb : CircuitBreaker) (now : Nat)
    (hs : cb.state = .CircuitOpen) (ht : cb.resetTimeout < now - cb.lastFailTime) :
    (cb.Call now (fun _ => (none : Option E)) =
      ({ cb with failures := 0, state := .CircuitClosed }, .succeeded)) ∧
    ∀ e : E,
      (cb.Call now fun _ => some e).2 = .failed e ∧
      ((cb.Call now fun _ => some e).1).failures = cb.failures + 1 ∧
      ((cb.Call now fun _ => some e).1).lastFailTime = now ∧
      (((cb.Call now fun _ => some e).1).state = .CircuitOpen ↔
        cb.maxFailures ≤ cb.failures + 1) := by
  have hcond : ¬ (cb.state = .CircuitOpen ∧ ¬ cb.resetTimeout < now - cb.lastFailTime) := by
    intro hc
    exact hc.2 ht
  constructor
  · unfold CircuitBreaker.Call
    rw [if_neg hcond]
    dsimp only
    rw [if_pos hs]
    rfl
  · intro e
    unfold CircuitBreaker.Call
    rw [if_neg hcond]
    dsimp only
    rw [if_pos hs]
    unfold CircuitBreaker.onFailure
    dsimp only
    by_cases hth : cb.maxFailures ≤ cb.failures + 1
    · rw [if_pos hth]
      exact ⟨rfl, rfl, rfl, by simp [hth]⟩
    · rw [if_neg hth]
      exact ⟨rfl, rfl, rfl, by simp [hth]⟩

/-- C5 witness: an OPEN breaker (threshold 2, count 2) called after the cooldown:
a successful trial closes it and resets the count; a failing trial re-opens it. -/
theorem c5_halfopen_trial_witness :
    ((⟨2, 10, 2, 0, .CircuitOpen⟩ : CircuitBreaker).Call 11
        (fun _ => (none : Option Nat)) =
      (⟨2, 10, 0, 0, .CircuitClosed⟩, .succeeded)) ∧
    ((⟨2, 10, 2, 0, .CircuitOpen⟩ : CircuitBreaker).Call 11 (fun _ => some 5)).2 =
      .failed 5 ∧
    (((⟨2, 10, 2, 0, .CircuitOpen⟩ : CircuitBreaker).Call 11
        (fun _ => some 5)).1).state = .CircuitOpen := by
  have h := c5_halfopen_trial (E := Nat) ⟨2, 10, 2, 0, .CircuitOpen⟩ 11 rfl (by decide)
  exact ⟨h.1, (h.2 5).1, ((h.2 5).2.2.2).mpr (by decide)⟩

/-- C10: from any fresh breaker with positive threshold the invariant "state is
OPEN or HALF_OPEN iff the failure count has reached the threshold" holds and is
preserved by every `Call`; consequently a failing HALF_OPEN trial always returns
the breaker to OPEN, and a CLOSED breaker's count is always below the threshold. -/
theorem c10_state_count_invariant :
    (∀ maxF rT : Nat, 1 ≤ maxF → BreakerInv (NewCircuitBreaker maxF rT)) ∧
    (∀ (E : Type) (cb : CircuitBreaker) (now : Nat) (fn : Unit → Option E),
      BreakerInv cb → BreakerInv (cb.Call now fn).1) ∧
    (∀ (E : Type) (cb : CircuitBreaker) (now : Nat) (e : E),
      BreakerInv cb → cb.state = .CircuitHalfOpen →
      ((cb.Call now fun _ => some e).1).state = .CircuitOpen) ∧
    (∀ cb : CircuitBreaker, BreakerInv cb → cb.state = .CircuitClosed →
      cb.failures < cb.maxFailures) := by
  refine ⟨?_, ?_, ?_, ?_⟩
  · intro maxF rT hF
    exact ⟨hF, by simp [NewCircuitBreaker]; omega⟩
  · intro E cb now fn ⟨hpos, hiff⟩
    unfold CircuitBreaker.Call
    by_cases hrej : cb.state = .CircuitOpen ∧ ¬ cb.resetTimeout < now - cb.lastFailTime
    · rw [if_pos hrej]
      exact ⟨hpos, hiff⟩
    · rw [if_neg hrej]
      try dsimp only
      by_cases hopen : cb.state = .CircuitOpen
      · rw [if_pos hopen]
        have hge : cb.maxFailures ≤ cb.failures := hiff.mp (Or.inl hopen)
        cases hfn : fn () with
        | some e =>
          try dsimp only
          unfold CircuitBreaker.onFailure
          try dsimp only
          rw [if_pos (by omega : cb.maxFailures ≤ cb.failures + 1)]
          refine ⟨hpos, ?_⟩
          try dsimp only
          constructor
          · intro _; omega
          · intro _; exact Or.inl rfl
        | none =>
          try dsimp only
          unfold CircuitBreaker.onSuccess
          refine ⟨hpos, ?_⟩
          try dsimp only
          constructor
          · rintro (h | h) <;> exact absurd h (by simp)
          · intro h; exact absurd h (by omega)
      · rw [if_neg hopen]
        cases hfn : fn () with
        | some e =>
          try dsimp only
          unfold CircuitBreaker.onFailure
          try dsimp only
          by_cases hth : cb.maxFailures ≤ cb.failures + 1
          · rw [if_pos hth]
            refine ⟨hpos, ?_⟩
            try dsimp only
            constructor
            · intro _; omega
            · intro _; exact Or.inl rfl
          · rw [if_neg hth]
            refine ⟨hpos, ?_⟩
            try dsimp only
            constructor
            · rintro (h | h)
              · exact absurd h hopen
              · exact absurd (hiff.mp (Or.inr h)) (by omega)
            · intro h; exact absurd h hth
        | none =>
          try dsimp only
          unfold CircuitBreaker.onSuccess
          refine ⟨hpos, ?_⟩
          try dsimp only
          constructor
          · rintro (h | h) <;> exact absurd h (by simp)
          · intro h; exact absurd h (by omega)
  · intro E cb now e ⟨hpos, hiff⟩ hhalf
    have hge : cb.maxFailures ≤ cb.failures := hiff.mp (Or.inr hhalf)
    unfold CircuitBreaker.Call
    rw [if_neg (by simp [hhalf])]
    dsimp only
    rw [if_neg (by simp [hhalf])]
    unfold CircuitBreaker.onFailure
    rw [if_pos (by dsimp only; omega)]
  · intro cb ⟨hpos, hiff⟩ hclosed
    by_contra hge
    have := hiff.mpr (by omega)
    rcases this with h | h <;> rw [hclosed] at h <;> exact absurd h (by simp)

/-- C10 witness: the invariant holds for a fresh breaker with threshold 1, and a
failing HALF_OPEN trial on a breaker at the threshold re-opens it. -/
theorem c10_state_count_invariant_witness :
    BreakerInv (NewCircuitBreaker 1 5) ∧
    (((⟨1, 5, 1, 0, .CircuitHalfOpen⟩ : CircuitBreaker).Call 3
        (fun _ => some 0)).1).state = .CircuitOpen :=
  ⟨c10_state_count_invariant.1 1 5 (by decide),
   c10_state_count_invariant.2.2.1 Nat ⟨1, 5, 1, 0, .CircuitHalfOpen⟩ 3 0
     (by decide) rfl⟩

/-- C7: a 2xx secret response with an empty `result` yields the "empty result"
error; the token fetch succeeds exactly for delivered 2xx responses carrying a
non-empty `result`; and an orchestrator run whose secret endpoint always returns
`{"result":""}` with status 200 fails with the exhausted wrapping of the
"empty result" auth error after 3 GET attempts and performs no POST call. -/
theorem c7_empty_result_blocks_submission :
    (∀ resp : HttpResponse, 200 ≤ resp.status → resp.status < 300 →
      resp.body = .jsonResult "" →
      getAuthTokenWithClient (some resp) = .error .emptyResult) ∧
    (∀ (resp? : Option HttpResponse) (t : String),
      getAuthTokenWithClient resp? = .ok t →
      ¬ t = "" ∧ ∃ resp, resp? = some resp ∧ resp.body = .jsonResult t ∧
        200 ≤ resp.status ∧ resp.status < 300) ∧
    (∀ (rT now : Nat) (cs : Nat → Bool) (postR : Nat → Option HttpResponse)
        (d : ApplicationData),
      validateApplicationDataFunctional d = .ok d →
      SubmitApplication (NewCircuitBreaker 3 rT) now (fun _ => false) cs
          (fun _ => some ⟨200, .jsonResult ""⟩) postR d =
        ⟨.error (.retriesExhausted (.authError .emptyResult)),
         ⟨3, rT, 1, now, .CircuitClosed⟩, 3, 0⟩) := by
  refine ⟨?_, ?_, ?_⟩
  · intro resp h200 h300 hbody
    unfold getAuthTokenWithClient
    dsimp only
    unfold validateSecretResponse
    rw [if_neg (by omega : ¬ (resp.status < 200 ∨ 300 ≤ resp.status))]
    dsimp only
    unfold parseSecretResponse
    rw [hbody]
    rfl
  · intro resp? t h
    cases resp? with
    | none => simp [getAuthTokenWithClient] at h
    | some resp =>
      unfold getAuthTokenWithClient at h
      dsimp only at h
      cases hv : validateSecretResponse resp with
      | error e => rw [hv] at h; simp at h
      | ok u =>
        rw [hv] at h
        dsimp only at h
        have hstatus : 200 ≤ resp.status ∧ resp.status < 300 := by
          unfold validateSecretResponse at hv
          by_cases hc : resp.status < 200 ∨ 300 ≤ resp.status
          · rw [if_pos hc] at hv; simp at hv
          · omega
        unfold parseSecretResponse at h
        cases hb : resp.body with
        | malformed => rw [hb] at h; simp at h
        | jsonResult r =>
          rw [hb] at h
          dsimp only at h
          by_cases hr : r = ""
          · rw [if_pos hr] at h; simp at h
          · rw [if_neg hr] at h
            simp only [Except.ok.injEq] at h
            subst h
            exact ⟨hr, resp, rfl, hb, hstatus.1, hstatus.2⟩
  · intro rT now cs postR d hval
    unfold SubmitApplication
    rw [hval]
    rfl

/-- C7 witness: a concrete run against a secret endpoint answering 200 with
`{"result":""}` fails with the wrapped empty-result error, makes 3 GET calls and
no POST call. -/
theorem c7_empty_result_blocks_submission_witness :
    SubmitApplication (NewCircuitBreaker 3 7) 0 (fun _ => false) (fun _ => false)
        (fun _ => some ⟨200, .jsonResult ""⟩) (fun _ => none) sampleData =
      ⟨.error (.retriesExhausted (.authError .emptyResult)),
       ⟨3, 7, 1, 0, .CircuitClosed⟩, 3, 0⟩ :=
  c7_empty_result_blocks_submission.2.2 7 0 (fun _ => false) (fun _ => none)
    sampleData (by decide)

/-- C6 counterexample: the payload with name `"John Doe"`, email
`"john@example.com"` and job title `"SE"` satisfies the claimed acceptance
predicate (all three fields non-blank, email contains `@` and `.`), yet the code's
validator rejects it with a minimum-length error, so the claimed acceptance set is
wrong. -/
theorem c6_counterexample :
    specValidationAccepts ⟨"John Doe", "john@example.com", "SE", none⟩ = true ∧
    validateApplicationDataFunctional ⟨"John Doe", "john@example.com", "SE", none⟩ =
      .error (.tooShort 3) :=
  ⟨by decide, by decide⟩

/-- C6 (amended): the validator accepts exactly the payloads whose trimmed name is
non-blank with length at least 2, whose trimmed email is non-blank and contains
both `@` and `.`, and whose trimmed job title is non-blank with length at least 3;
and every payload it rejects makes the orchestrator return the wrapped validation
error immediately, with the breaker untouched and no GET or POST transport call. -/
theorem c6_validation_gate :
    (∀ d : ApplicationData,
      validateApplicationDataFunctional d = .ok d ↔
        (¬ TrimSpace d.name = "" ∧ ¬ (TrimSpace d.name).length < 2 ∧
         ¬ TrimSpace d.email = "" ∧
         (strContains d.email '@' = true ∧ strContains d.email '.' = true) ∧
         ¬ TrimSpace d.jobTitle = "" ∧ ¬ (TrimSpace d.jobTitle).length < 3)) ∧
    (∀ (d : ApplicationData) (e : AppErr) (cb : CircuitBreaker) (now : Nat)
        (cf cs : Nat → Bool) (getR postR : Nat → Option HttpResponse),
      validateApplicationDataFunctional d = .error e →
      SubmitApplication cb now cf cs getR postR d =
        ⟨.error (.validationError e), cb, 0, 0⟩) := by
  constructor
  · intro d
    unfold validateApplicationDataFunctional RequiredField EmailFormat MinLength
    by_cases h1 : TrimSpace d.name = "" <;>
      by_cases h2 : (TrimSpace d.name).length < 2 <;>
      by_cases h3 : TrimSpace d.email = "" <;>
      by_cases h4 : strContains d.email '@' = true ∧ strContains d.email '.' = true <;>
      by_cases h5 : TrimSpace d.jobTitle = "" <;>
      by_cases h6 : (TrimSpace d.jobTitle).length < 3 <;>
      simp [h1, h2, h3, h4, h5, h6]
  · intro d e cb now cf cs getR postR hval
    unfold SubmitApplication
    rw [hval]

/-- C6 witness: the payload with a blank name is rejected with the "name is
required" error; the orchestrator returns it wrapped as a validation error with
an untouched breaker and no transport call. -/
theorem c6_validation_gate_witness :
    SubmitApplication (NewCircuitBreaker 3 1) 0 (fun _ => false) (fun _ => false)
        (fun _ => none) (fun _ => none) ⟨"", "a@b.c", "Dev", none⟩ =
      ⟨.error (.validationError (.fieldRequired "name")), NewCircuitBreaker 3 1, 0, 0⟩ :=
  c6_validation_gate.2 ⟨"", "a@b.c", "Dev", none⟩ (.fieldRequired "name")
    (NewCircuitBreaker 3 1) 0 (fun _ => false) (fun _ => false) (fun _ => none)
    (fun _ => none) (by decide)

/-- C1 counterexample: with a fresh breaker (threshold 3, as constructed by
`NewAppDependencies`), a successful token fetch and a submission whose POSTs all
fail at the transport, the orchestrator returns the exhausted submission error yet
the breaker's failure count stays 0 and the breaker CLOSED — the submission
failure did not count toward the breaker's threshold — whereas the spec-modelled
breaker-wrapped submission step (`specSubmitStep`) at the same point records
failure count 1. -/
theorem c1_counterexample :
    (SubmitApplication (NewCircuitBreaker 3 30000000000) 0 (fun _ => false)
        (fun _ => false) (fun _ => some ⟨200, .jsonResult "tok-1"⟩) (fun _ => none)
        sampleData).result =
      .error (.retriesExhausted (.networkError .requestFailed)) ∧
    (SubmitApplication (NewCircuitBreaker 3 30000000000) 0 (fun _ => false)
        (fun _ => false) (fun _ => some ⟨200, .jsonResult "tok-1"⟩) (fun _ => none)
        sampleData).breaker.failures = 0 ∧
    (SubmitApplication (NewCircuitBreaker 3 30000000000) 0 (fun _ => false)
        (fun _ => false) (fun _ => some ⟨200, .jsonResult "tok-1"⟩) (fun _ => none)
        sampleData).breaker.state = .CircuitClosed ∧
    (specSubmitStep (NewCircuitBreaker 3 30000000000) 0 (fun _ => false)
        (fun _ => none)).1.failures = 1 :=
  ⟨by decide, by decide, by decide, by decide⟩

/-- C1 (amended): the submission step runs through the retry executor only, with no
circuit-breaker involvement: the final breaker state of a run never depends on the
submission transport or its cancellation behaviour, and when the breaker is OPEN
within its cooldown a run with a valid payload is rejected at the token-fetch step
with the "circuit open" error, no GET and no POST transport call. -/
theorem c1_submission_not_breaker_wrapped :
    (∀ (cb : CircuitBreaker) (now : Nat) (cf cs cs2 : Nat → Bool)
        (getR postR postR2 : Nat → Option HttpResponse) (d : ApplicationData),
      (SubmitApplication cb now cf cs getR postR d).breaker =
        (SubmitApplication cb now cf cs2 getR postR2 d).breaker) ∧
    (∀ (cb : CircuitBreaker) (now : Nat) (cf cs : Nat → Bool)
        (getR postR : Nat → Option HttpResponse) (d : ApplicationData),
      validateApplicationDataFunctional d = .ok d →
      cb.state = .CircuitOpen →
      now - cb.lastFailTime ≤ cb.resetTimeout →
      SubmitApplication cb now cf cs getR postR d =
        ⟨.error .circuitOpen, cb, 0, 0⟩) := by
  constructor
  · intro cb now cf cs cs2 getR postR postR2 d
    unfold SubmitApplication
    cases hv : validateApplicationDataFunctional d with
    | error e => rfl
    | ok d1 =>
      obtain ⟨res, cb1, g⟩ := fetchTokenWithResilience cb now cf getR
      cases res with
      | error e => rfl
      | ok tok =>
        dsimp only
        cases retryError (submitWithResilience cs postR).1 <;>
          cases retryError (submitWithResilience cs2 postR2).1 <;> rfl
  · intro cb now cf cs getR postR d hval hs ht
    unfold SubmitApplication
    rw [hval]
    dsimp only
    unfold fetchTokenWithResilience
    dsimp only
    rw [Call_open_within_cooldown cb now _ hs ht]

/-- C1 witness: an OPEN breaker still inside its cooldown makes a valid-payload run
fail with the "circuit open" error and no transport calls. -/
theorem c1_submission_not_breaker_wrapped_witness :
    SubmitApplication ⟨3, 100, 3, 50, .CircuitOpen⟩ 60 (fun _ => false)
        (fun _ => false) (fun _ => some ⟨200, .jsonResult "tok-1"⟩) (fun _ => none)
        sampleData =
      ⟨.error .circuitOpen, ⟨3, 100, 3, 50, .CircuitOpen⟩, 0, 0⟩ :=
  c1_submission_not_breaker_wrapped.2 ⟨3, 100, 3, 50, .CircuitOpen⟩ 60
    (fun _ => false) (fun _ => false) (fun _ => some ⟨200, .jsonResult "tok-1"⟩)
    (fun _ => none) sampleData (by decide) rfl (by decide)
